import Mathlib

/-!
Verification of the selection and scoring engine of the AFS Assessment
Framework (src/static/src/js/create/helpers.js), via a shallow embedding.

Modelling conventions:
* JavaScript numbers are modelled as exact rationals (ℚ); `x.toFixed(2)`
  followed by the unary `+` conversion is modelled as rounding the rational
  to 2 decimal places, half away from zero for the non-negative values that
  occur here (`round2`).
* JavaScript plain objects used as string-keyed maps are modelled as
  association lists (`List (String × _)`); object assignment `m[k] = v`
  keeps the position of an existing key and appends a new key (`setKey`),
  matching JS property-order semantics; property access `m[k]` is `getKey`.
* The tri-state answer values (`true` / `false` / `null` = unanswered) are
  `Option Bool` (`none` = unanswered); JS truthiness of such a value holds
  exactly for `some true`.
* The JS functions mutate nothing except where noted: `validateSelection`
  mutates its argument in place, so it is embedded as returning the pair
  of its boolean result and the repaired state.
-/

/-- Rounding a rational to 2 decimal places, ties away from zero for
non-negative inputs: the model of `+(x).toFixed(2)` on the non-negative
scores produced by the engine (see `round2_eq_round`). -/
def round2 (q : ℚ) : ℚ := (((q * 100 + 1/2).floor : ℤ) : ℚ) / 100

theorem round2_eq_floor (q : ℚ) : round2 q = ((⌊q * 100 + 1/2⌋ : ℤ) : ℚ) / 100 := by
  rw [round2, Rat.floor_def', ← Rat.floor_def]

/-- `round2` is rounding to the nearest hundredth, ties upward. -/
theorem round2_eq_round (q : ℚ) : round2 q = ((round (q * 100) : ℤ) : ℚ) / 100 := by
  rw [round2_eq_floor, round_eq]

theorem round2_concrete {q : ℚ} {n : ℤ} (h1 : (n : ℚ) ≤ q * 100 + 1/2)
    (h2 : q * 100 + 1/2 < n + 1) : round2 q = (n : ℚ) / 100 := by
  rw [round2_eq_floor, Int.floor_eq_iff.mpr ⟨h1, h2⟩]

/-- A tri-state answer: `some true` = yes, `some false` = no,
`none` = unanswered (`null`). -/
abbrev TriState := Option Bool

/-- An area of the configuration: `{ id, name, questions: [ { text } ] }`. -/
structure Area where
  id : String
  name : String
  questions : List String
deriving DecidableEq, Repr

/-- A domain of the configuration: `{ id, name, areas: [...] }`. -/
structure Domain where
  id : String
  name : String
  areas : List Area
deriving DecidableEq, Repr

/-- The configuration document: `{ domains: [...] }`. -/
structure Config where
  domains : List Domain
deriving DecidableEq, Repr

/-- Per-domain selection record `{ selected: bool, areas: { [areaId]: bool } }`. -/
structure DomainSel where
  selected : Bool
  areas : List (String × Bool)
deriving DecidableEq, Repr

/-- The selection state `{ domains: { [domId]: DomainSel } }`. -/
structure SelectionState where
  domains : List (String × DomainSel)
deriving DecidableEq, Repr

/-- Property access `m[k]` on a JS object modelled as an association list:
the value at the first (only, for JS-reachable states) occurrence of `k`. -/
def getKey {V : Type} (m : List (String × V)) (k : String) : Option V :=
  match m with
  | [] => none
  | (k', v) :: rest => if k' = k then some v else getKey rest k

/-- Property assignment `m[k] = v` on a JS object: overwrite in place if the
key exists, append otherwise (JS property-order semantics). -/
def setKey {V : Type} (m : List (String × V)) (k : String) (v : V) :
    List (String × V) :=
  match m with
  | [] => [(k, v)]
  | (k', v') :: rest => if k' = k then (k', v) :: rest else (k', v') :: setKey rest k v

/-- Truthiness of `m[k]` for a boolean-valued JS map: `false` when the key is
absent or maps to `false`. -/
def getFlag (m : List (String × Bool)) (k : String) : Bool :=
  (getKey m k).getD false

/-- `getSelectedDomains(config, selectionState)` from helpers.js: iterate
domains in configuration order, skip a domain with no entry in the selection
state (`if (!domSel) continue`), filter its areas by the per-area flag, and
keep the domain (with filtered areas) only when the filtered list is
non-empty. -/
def getSelectedDomains (config : Config) (selectionState : SelectionState) :
    List Domain :=
  config.domains.filterMap (fun domain =>
    match getKey selectionState.domains domain.id with
    | none => none
    | some domSel =>
      let selectedAreas := domain.areas.filter (fun a => getFlag domSel.areas a.id)
      if 0 < selectedAreas.length then some { domain with areas := selectedAreas }
      else none)

/-- `calculateAreaScore(areaAnswers)` from helpers.js:
`yesCount = areaAnswers.filter(Boolean).length` (only `true` is truthy among
the tri-state values), `total = areaAnswers.length || 1`,
`normalized = Math.max(0, Math.min(1, yesCount / total))`, result
`+(normalized * 5).toFixed(2)`. -/
def calculateAreaScore (areaAnswers : List TriState) : ℚ :=
  let yesCount := (areaAnswers.filter (fun a => a == some true)).length
  let total : ℕ := if areaAnswers.length = 0 then 1 else areaAnswers.length
  let normalized : ℚ := max 0 (min 1 ((yesCount : ℚ) / (total : ℚ)))
  round2 (normalized * 5)

/-- `calculateDomainScore(domainAreas, answersByArea)` from helpers.js: `0`
for an empty area list; otherwise a loop accumulating, for each area, either
`0` (when `answersByArea[area.id]` is absent or empty and the area has at
least one question — "unanswered counts as 0") or `calculateAreaScore` of
that area's answer array (absent modelled by `.getD []`, as in
`answersByArea[area.id] || []`), together with a term count; the result is
the rounded mean `+(sum / count).toFixed(2)` (or `0` when `count` is `0`). -/
def calculateDomainScore (domainAreas : List Area)
    (answersByArea : List (String × List TriState)) : ℚ :=
  if domainAreas.length = 0 then 0
  else
    let acc := domainAreas.foldl
      (fun (acc : ℚ × ℕ) (area : Area) =>
        let arr := (getKey answersByArea area.id).getD []
        if arr.length = 0 ∧ area.questions.length ≠ 0 then (acc.1 + 0, acc.2 + 1)
        else (acc.1 + calculateAreaScore arr, acc.2 + 1))
      ((0 : ℚ), (0 : ℕ))
    if acc.2 ≠ 0 then round2 (acc.1 / (acc.2 : ℚ)) else 0

/-- `calculateOverallScore(selectedDomains, answersByArea)` from helpers.js:
`0` for an empty domain list, otherwise the rounded mean of the per-domain
scores of `domain.areas`, accumulated by the same sum/count loop shape. -/
def calculateOverallScore (selectedDomains : List Domain)
    (answersByArea : List (String × List TriState)) : ℚ :=
  if selectedDomains.length = 0 then 0
  else
    let acc := selectedDomains.foldl
      (fun (acc : ℚ × ℕ) (domain : Domain) =>
        (acc.1 + calculateDomainScore domain.areas answersByArea, acc.2 + 1))
      ((0 : ℚ), (0 : ℕ))
    if acc.2 ≠ 0 then round2 (acc.1 / (acc.2 : ℚ)) else 0

/-!
`saveLocal(key, value)` / `loadLocal(key, fallback)` from helpers.js wrap the
browser's `localStorage` plus `JSON.stringify` / `JSON.parse` in `try`/`catch`.
Neither `localStorage` nor the JSON built-ins are code of this repository;
they are modelled as follows:
* the backing store is a string-keyed map of already-decoded values of an
  arbitrary type `V` — serialization by the JSON built-ins (which are inverse
  on the JSON-serializable values the engine stores) is abstracted away;
* an exception thrown by the storage layer (quota exceeded on write, corrupt
  stored string on read — the only possible throw sites) is modelled by the
  explicit `raises` flag; the `try { ... } catch {}` of the source is the
  `if` on that flag.
`loadLocal`'s `v ? JSON.parse(v) : fallback` takes the fallback exactly when
`getItem` returned `null` (key absent; the other falsy string `""` is never
produced by `JSON.stringify` of a serializable value), which is the `none`
case of the lookup.
-/

/-- `saveLocal(key, value)`: store the value under the key; if the storage
layer throws, swallow the exception, leaving the store unchanged. -/
def saveLocal {V : Type} (raises : Bool) (store : List (String × V))
    (key : String) (value : V) : List (String × V) :=
  if raises then store else setKey store key value

/-- `loadLocal(key, fallback)`: return the stored value, or the fallback when
the key is absent or the storage layer throws. -/
def loadLocal {V : Type} (raises : Bool) (store : List (String × V))
    (key : String) (fallback : V) : V :=
  if raises then fallback
  else
    match getKey store key with
    | some v => v
    | none => fallback

/-- The per-domain record `{ selected: true, areas: { [a.id]: true } }` built
by the inner loop of `buildDefaultSelection`. -/
def defaultDomainSel (d : Domain) : DomainSel :=
  { selected := true
    areas := d.areas.foldl (fun am a => setKey am a.id true) [] }

/-- `buildDefaultSelection(config)` from helpers.js: for each domain assign
`state.domains[d.id] = { selected: true, areas: {} }` and then set each of
its area flags to `true`. -/
def buildDefaultSelection (config : Config) : SelectionState :=
  { domains := config.domains.foldl (fun m d => setKey m d.id (defaultDomainSel d)) [] }

/-- `Object.values(dom.areas).filter(Boolean).length`: the number of area
flags of a domain-selection record that are `true`. -/
def areaTrueCount (d : DomainSel) : ℕ :=
  (d.areas.filter (fun p => p.2)).length

/-- The per-domain body of the `validateSelection` loop: if the domain is
selected but has no `true` area flag, deselect it (`dom.selected = false`). -/
def repairDomain (d : DomainSel) : DomainSel :=
  if d.selected = true ∧ areaTrueCount d = 0 then { d with selected := false } else d

/-- `validateSelection(selectionState)` from helpers.js: a loop over the
domain entries that accumulates the total count of `true` area flags and
repairs each entry in place; the function returns `total > 0`. Since the JS
function mutates its argument, the embedding returns the pair of the boolean
result and the repaired state (entry order is preserved by the in-place
mutation). -/
def validateSelection (selectionState : SelectionState) : Bool × SelectionState :=
  let acc := selectionState.domains.foldl
    (fun (acc : ℕ × List (String × DomainSel)) (p : String × DomainSel) =>
      (acc.1 + areaTrueCount p.2, acc.2 ++ [(p.1, repairDomain p.2)]))
    ((0 : ℕ), ([] : List (String × DomainSel)))
  (decide (0 < acc.1), { domains := acc.2 })

/-- The total number of `true` area flags across all domains of a selection
state (the specification's "total true-area count"). -/
def totalTrueAreas (st : SelectionState) : ℕ :=
  (st.domains.map (fun p => areaTrueCount p.2)).sum

/-! ### Lemmas about the association-list model of JS objects -/

theorem getKey_setKey_self {V : Type} :
    ∀ (m : List (String × V)) (k : String) (v : V), getKey (setKey m k v) k = some v
  | [], k, v => by simp [setKey, getKey]
  | (k', v') :: rest, k, v => by
    by_cases h : k' = k
    · simp [setKey, getKey, h]
    · simp [setKey, getKey, h, getKey_setKey_self rest k v]

theorem mem_setKey {V : Type} :
    ∀ {m : List (String × V)} {k : String} {v : V} {p : String × V},
      p ∈ setKey m k v → p ∈ m ∨ p = (k, v)
  | [], k, v, p, h => by
    simp [setKey] at h
    exact Or.inr h
  | (k', v') :: rest, k, v, p, h => by
    by_cases hk : k' = k
    · simp only [setKey, if_pos hk, List.mem_cons] at h
      rcases h with h | h
      · exact Or.inr (by rw [h, hk])
      · exact Or.inl (List.mem_cons_of_mem _ h)
    · simp only [setKey, if_neg hk, List.mem_cons] at h
      rcases h with h | h
      · exact Or.inl (h ▸ List.mem_cons_self _ _)
      · rcases mem_setKey h with h' | h'
        · exact Or.inl (List.mem_cons_of_mem _ h')
        · exact Or.inr h'

theorem setKey_ne_nil {V : Type} (m : List (String × V)) (k : String) (v : V) :
    setKey m k v ≠ [] := by
  cases m with
  | nil => simp [setKey]
  | cons p rest =>
    simp only [setKey]
    split <;> simp

theorem setKey_of_fresh {V : Type} :
    ∀ (m : List (String × V)) (k : String) (v : V), k ∉ m.map Prod.fst →
      setKey m k v = m ++ [(k, v)]
  | [], k, v, _ => rfl
  | (k', v') :: rest, k, v, h => by
    simp only [List.map_cons, List.mem_cons] at h
    push_neg at h
    have hne : ¬ k' = k := fun hk => h.1 hk.symm
    simp only [setKey, if_neg hne, List.cons_append]
    rw [setKey_of_fresh rest k v h.2]

/-- The sum/count accumulation loop shared by `calculateDomainScore` and
`calculateOverallScore`. -/
theorem foldl_sum_count {α : Type} (f : α → ℚ) :
    ∀ (l : List α) (s : ℚ) (c : ℕ),
      l.foldl (fun acc x => (acc.1 + f x, acc.2 + 1)) (s, c)
        = (s + (l.map f).sum, c + l.length)
  | [], s, c => by simp
  | x :: l, s, c => by
    simp only [List.foldl_cons, List.map_cons, List.sum_cons, List.length_cons]
    rw [foldl_sum_count f l, Prod.mk.injEq]
    exact ⟨by ring, by omega⟩

/-- The count/rebuild accumulation loop of `validateSelection`. -/
theorem foldl_count_append {α β : Type} (g : α → ℕ) (h : α → β) :
    ∀ (l : List α) (n : ℕ) (r : List β),
      l.foldl (fun acc x => (acc.1 + g x, acc.2 ++ [h x])) (n, r)
        = (n + (l.map g).sum, r ++ l.map h)
  | [], n, r => by simp
  | x :: l, n, r => by
    simp only [List.foldl_cons, List.map_cons, List.sum_cons]
    rw [foldl_count_append g h l]
    simp [add_assoc]

/-! ### Order and concrete-value lemmas for `round2` -/

theorem round2_mono {q r : ℚ} (h : q ≤ r) : round2 q ≤ round2 r := by
  rw [round2_eq_floor, round2_eq_floor]
  have hf : (⌊q * 100 + 1/2⌋ : ℚ) ≤ (⌊r * 100 + 1/2⌋ : ℚ) := by
    exact_mod_cast Int.floor_mono (by linarith)
  linarith

theorem round2_zero : round2 0 = 0 := by
  rw [round2_concrete (n := 0) (by norm_num) (by norm_num)]; norm_num

theorem round2_five : round2 5 = 5 := by
  rw [round2_concrete (n := 500) (by norm_num) (by norm_num)]; norm_num

theorem round2_nonneg {q : ℚ} (h : 0 ≤ q) : 0 ≤ round2 q :=
  round2_zero ▸ round2_mono h

theorem round2_le_five {q : ℚ} (h : q ≤ 5) : round2 q ≤ 5 :=
  round2_five ▸ round2_mono h

theorem validateSelection_eq (st : SelectionState) :
    validateSelection st =
      (decide (0 < totalTrueAreas st),
        ⟨st.domains.map (fun p => (p.1, repairDomain p.2))⟩) := by
  simp only [validateSelection, foldl_count_append]
  simp [totalTrueAreas]

/-! ### C1: area score -/

/-- C1: for every answer sequence `a` of length `n` with tri-state entries,
`calculateAreaScore a` lies in `[0, 5]` and equals
`5 * (count of entries strictly equal to true / max(n, 1))` rounded to 2
decimal places; in particular `calculateAreaScore []` is `0`. -/
theorem calculateAreaScore_spec (a : List TriState) :
    (0 ≤ calculateAreaScore a ∧ calculateAreaScore a ≤ 5) ∧
    calculateAreaScore a =
      round2 (5 * (((a.filter (fun x => x == some true)).length : ℚ)
        / ((max a.length 1 : ℕ) : ℚ))) ∧
    calculateAreaScore [] = 0 := by
  have main : ∀ b : List TriState,
      calculateAreaScore b =
        round2 (5 * (((b.filter (fun x => x == some true)).length : ℚ)
          / ((max b.length 1 : ℕ) : ℚ))) ∧
      (0 : ℚ) ≤ ((b.filter (fun x => x == some true)).length : ℚ)
          / ((max b.length 1 : ℕ) : ℚ) ∧
      ((b.filter (fun x => x == some true)).length : ℚ)
          / ((max b.length 1 : ℕ) : ℚ) ≤ 1 := by
    intro b
    have hkn : (b.filter (fun x => x == some true)).length ≤ b.length :=
      List.length_filter_le _ _
    by_cases h0 : b.length = 0
    · have hk0 : (b.filter (fun x => x == some true)).length = 0 := by omega
      simp only [calculateAreaScore, h0, hk0, if_pos rfl]
      norm_num
    · have h1 : 1 ≤ b.length := Nat.one_le_iff_ne_zero.mpr h0
      have hmax : max b.length 1 = b.length := Nat.max_eq_left h1
      have hpos : (0 : ℚ) < (b.length : ℚ) := by
        exact_mod_cast Nat.pos_of_ne_zero h0
      have hr0 : (0 : ℚ) ≤ ((b.filter (fun x => x == some true)).length : ℚ)
          / (b.length : ℚ) := div_nonneg (by positivity) hpos.le
      have hr1 : ((b.filter (fun x => x == some true)).length : ℚ)
          / (b.length : ℚ) ≤ 1 := by
        rw [div_le_one hpos]
        exact_mod_cast hkn
      simp only [calculateAreaScore, if_neg h0, hmax]
      refine ⟨?_, hr0, hr1⟩
      rw [min_eq_right hr1, max_eq_right hr0, mul_comm]
  have hempty : calculateAreaScore [] = 0 := by
    rcases main [] with ⟨he, -, -⟩
    rw [he]
    norm_num [round2_zero]
  rcases main a with ⟨heq, hr0, hr1⟩
  refine ⟨⟨?_, ?_⟩, heq, hempty⟩
  · rw [heq]
    exact round2_nonneg (by positivity)
  · rw [heq]
    exact round2_le_five (by nlinarith)

/-! ### C6: validateSelection as a validity predicate -/

/-- C6: `validateSelection` returns `true` iff the total number of `true`
area flags summed across all domains is strictly positive; the
nothing-selected condition is signalled only through this boolean (the
embedding is a total function — no exception path exists). -/
theorem validateSelection_result_iff (st : SelectionState) :
    (validateSelection st).1 = true ↔ 0 < totalTrueAreas st := by
  rw [validateSelection_eq]
  simp

/-! ### C7: idempotence of validateSelection -/

theorem areaTrueCount_repairDomain (d : DomainSel) :
    areaTrueCount (repairDomain d) = areaTrueCount d := by
  unfold repairDomain
  split <;> rfl

theorem repairDomain_idem (d : DomainSel) :
    repairDomain (repairDomain d) = repairDomain d := by
  by_cases h : d.selected = true ∧ areaTrueCount d = 0
  · have h1 : repairDomain d = { d with selected := false } := by
      rw [repairDomain, if_pos h]
    rw [h1, repairDomain, if_neg (by simp)]
  · have h1 : repairDomain d = d := by
      rw [repairDomain, if_neg h]
    rw [h1, h1]

/-- C7: `validateSelection` is idempotent — running it on the state already
repaired by a first run returns the same boolean and the same state. -/
theorem validateSelection_idempotent (st : SelectionState) :
    validateSelection ((validateSelection st).2) = validateSelection st := by
  have h2 : (validateSelection st).2
      = ⟨st.domains.map (fun p => (p.1, repairDomain p.2))⟩ := by
    rw [validateSelection_eq]
  have hsum : totalTrueAreas ⟨st.domains.map (fun p => (p.1, repairDomain p.2))⟩
      = totalTrueAreas st := by
    unfold totalTrueAreas
    simp only [List.map_map]
    refine congrArg List.sum (List.map_congr_left ?_)
    intro p _
    simp [areaTrueCount_repairDomain]
  rw [h2, validateSelection_eq st, validateSelection_eq, Prod.mk.injEq]
  constructor
  · rw [hsum]
  · simp only [List.map_map]
    refine congrArg SelectionState.mk (List.map_congr_left ?_)
    intro p _
    simp [repairDomain_idem]

/-! ### C2: the selected-iff-some-area invariant after validateSelection -/

/-- A selection state with one domain whose `selected` flag is `false` while
one of its area flags is `true`: `validateSelection` never re-selects such a
domain (it only deselects), so the biconditional form of the invariant fails
on it. -/
def cexSelectionState : SelectionState :=
  ⟨[("d1", { selected := false, areas := [("a1", true)] })]⟩

/-- C2 counterexample: after `validateSelection` on `cexSelectionState`,
a domain has `selected = false` but a `true` area flag, so the claimed
biconditional ("selected iff at least one area flag true") does not hold for
every domain of the repaired state. -/
theorem validateSelection_biconditional_cex :
    ¬ (∀ p ∈ ((validateSelection cexSelectionState).2).domains,
        (p.2.selected = true ↔ 0 < areaTrueCount p.2)) := by
  decide

/-- C2 (amended): after `validateSelection`, every domain whose `selected`
flag is `true` has at least one `true` area flag. (Only this direction of
the biconditional is established by the repair pass; a deselected domain
with a selected area is left deselected, see
`validateSelection_biconditional_cex`.) -/
theorem validateSelection_selected_implies_area (st : SelectionState) :
    ∀ p ∈ ((validateSelection st).2).domains,
      p.2.selected = true → 0 < areaTrueCount p.2 := by
  intro p hp hsel
  rw [validateSelection_eq] at hp
  simp only [List.mem_map] at hp
  obtain ⟨q, hq, rfl⟩ := hp
  simp only at hsel ⊢
  by_cases h : q.2.selected = true ∧ areaTrueCount q.2 = 0
  · rw [repairDomain, if_pos h] at hsel
    simp at hsel
  · rw [repairDomain, if_neg h] at hsel ⊢
    push_neg at h
    exact Nat.pos_of_ne_zero (h hsel)

/-- A selection state on which the hypotheses of
`validateSelection_selected_implies_area` are exercised concretely. -/
def witSelectionState : SelectionState :=
  ⟨[("d1", { selected := true, areas := [("a1", true)] })]⟩

theorem validateSelection_selected_implies_area_witness :
    (("d1", ({ selected := true, areas := [("a1", true)] } : DomainSel))
        ∈ ((validateSelection witSelectionState).2).domains ∧
      ({ selected := true, areas := [("a1", true)] } : DomainSel).selected = true) ∧
    0 < areaTrueCount { selected := true, areas := [("a1", true)] } :=
  ⟨⟨by decide, by decide⟩,
    validateSelection_selected_implies_area witSelectionState
      ("d1", { selected := true, areas := [("a1", true)] }) (by decide) (by decide)⟩

/-! ### C9: persistence adapter round-trip and error swallowing -/

/-- C9: storing a value under a key and reading it back with no intervening
store mutation returns that value; a storage failure during `saveLocal`
is swallowed (the store is left unchanged and no error propagates — the
embedding is total), and a failure during `loadLocal` returns the fallback. -/
theorem saveLocal_loadLocal_spec {V : Type} (store : List (String × V))
    (k : String) (v fallback : V) :
    loadLocal false (saveLocal false store k v) k fallback = v ∧
    saveLocal true store k v = store ∧
    loadLocal true store k fallback = fallback := by
  refine ⟨?_, rfl, rfl⟩
  simp [loadLocal, saveLocal, getKey_setKey_self]

/-! ### Membership characterization of getSelectedDomains -/

theorem mem_getSelectedDomains_iff (config : Config) (st : SelectionState)
    (e : Domain) :
    e ∈ getSelectedDomains config st ↔
      ∃ d₀ ∈ config.domains, ∃ ds, getKey st.domains d₀.id = some ds ∧
        d₀.areas.filter (fun a => getFlag ds.areas a.id) ≠ [] ∧
        e = ⟨d₀.id, d₀.name, d₀.areas.filter (fun a => getFlag ds.areas a.id)⟩ := by
  simp only [getSelectedDomains, List.mem_filterMap]
  constructor
  · rintro ⟨d₀, hd₀, hf⟩
    cases hlook : getKey st.domains d₀.id with
    | none =>
      rw [hlook] at hf
      simp at hf
    | some ds =>
      rw [hlook] at hf
      simp only at hf
      by_cases hlen : 0 < (d₀.areas.filter (fun a => getFlag ds.areas a.id)).length
      · rw [if_pos hlen] at hf
        refine ⟨d₀, hd₀, ds, hlook, ?_, ?_⟩
        · exact List.length_pos.mp hlen
        · cases hf
          rfl
      · rw [if_neg hlen] at hf
        cases hf
  · rintro ⟨d₀, hd₀, ds, hlook, hne, rfl⟩
    refine ⟨d₀, hd₀, ?_⟩
    rw [hlook]
    simp only
    rw [if_pos (List.length_pos.mpr hne)]

/-! ### C10: domains missing from the selection state are omitted -/

/-- C10: a domain of the configuration with no entry at all in the selection
state's `domains` map never contributes to the output of
`getSelectedDomains` — no returned domain carries its id — regardless of the
areas the configuration lists for it. -/
theorem getSelectedDomains_missing_entry (config : Config)
    (st : SelectionState) (d : Domain) (_hd : d ∈ config.domains)
    (hmiss : getKey st.domains d.id = none) :
    ∀ e ∈ getSelectedDomains config st, e.id ≠ d.id := by
  intro e he heq
  rw [mem_getSelectedDomains_iff] at he
  obtain ⟨d₀, hd₀, ds, hlook, hne, rfl⟩ := he
  simp only at heq
  rw [heq] at hlook
  rw [hmiss] at hlook
  cases hlook

/-! ### C3: full characterization of getSelectedDomains -/

theorem map_id_filterMap_sublist (f : Domain → Option Domain)
    (hf : ∀ d e, f d = some e → e.id = d.id) :
    ∀ l : List Domain, ((l.filterMap f).map Domain.id).Sublist (l.map Domain.id)
  | [] => by simp
  | d :: l => by
    cases hfd : f d with
    | none =>
      simp only [List.filterMap_cons, hfd, List.map_cons]
      exact (map_id_filterMap_sublist f hf l).cons _
    | some e =>
      simp only [List.filterMap_cons, hfd, List.map_cons]
      rw [hf d e hfd]
      exact (map_id_filterMap_sublist f hf l).cons₂ _

/-- C3: `getSelectedDomains` returns the domains in configuration order
(their ids form a sublist of the configuration's id sequence, so ordering is
preserved and — given the data model's unique domain ids — no domain appears
twice), each with its areas replaced by the in-order subsequence of areas
whose selection flag is true; every returned domain has a non-empty filtered
area list and arises from a configured domain with an entry in the selection
state; conversely every configured domain with a state entry and a non-empty
filtered area list is returned, irrespective of its `selected` flag (which
the function never reads). Both inputs are left untouched (the embedding is
a pure function of them). -/
theorem getSelectedDomains_spec (config : Config) (st : SelectionState)
    (hids : (config.domains.map Domain.id).Nodup) :
    ((getSelectedDomains config st).map Domain.id).Sublist
        (config.domains.map Domain.id) ∧
    ((getSelectedDomains config st).map Domain.id).Nodup ∧
    (∀ e ∈ getSelectedDomains config st,
      e.areas ≠ [] ∧
      ∃ d₀ ∈ config.domains, ∃ ds, getKey st.domains d₀.id = some ds ∧
        e = ⟨d₀.id, d₀.name, d₀.areas.filter (fun a => getFlag ds.areas a.id)⟩) ∧
    (∀ d₀ ∈ config.domains, ∀ ds, getKey st.domains d₀.id = some ds →
      d₀.areas.filter (fun a => getFlag ds.areas a.id) ≠ [] →
      (⟨d₀.id, d₀.name, d₀.areas.filter (fun a => getFlag ds.areas a.id)⟩ : Domain)
        ∈ getSelectedDomains config st) := by
  have hsub : ((getSelectedDomains config st).map Domain.id).Sublist
      (config.domains.map Domain.id) := by
    unfold getSelectedDomains
    apply map_id_filterMap_sublist
    intro d e hf
    cases hlook : getKey st.domains d.id with
    | none =>
      rw [hlook] at hf
      simp at hf
    | some ds =>
      rw [hlook] at hf
      simp only at hf
      split at hf
      · cases hf
        rfl
      · cases hf
  refine ⟨hsub, List.Nodup.sublist hsub hids, ?_, ?_⟩
  · intro e he
    rw [mem_getSelectedDomains_iff] at he
    obtain ⟨d₀, hd₀, ds, hlook, hne, rfl⟩ := he
    exact ⟨hne, d₀, hd₀, ds, hlook, rfl⟩
  · intro d₀ hd₀ ds hlook hne
    rw [mem_getSelectedDomains_iff]
    exact ⟨d₀, hd₀, ds, hlook, hne, rfl⟩

/-- A one-domain configuration (two areas, one selected) exercising
`getSelectedDomains_spec` concretely. -/
def witConfig3 : Config :=
  ⟨[⟨"d1", "D1", [⟨"a1", "A1", ["q1"]⟩, ⟨"a2", "A2", []⟩]⟩]⟩

def witState3 : SelectionState :=
  ⟨[("d1", { selected := true, areas := [("a1", true)] })]⟩

theorem getSelectedDomains_spec_witness :
    (witConfig3.domains.map Domain.id).Nodup ∧
    ((getSelectedDomains witConfig3 witState3).map Domain.id).Nodup :=
  ⟨by decide, (getSelectedDomains_spec witConfig3 witState3 (by decide)).2.1⟩

/-- A configuration/state pair for C10: domain `d2` has areas configured but
no entry in the selection state. -/
def witConfig10 : Config :=
  ⟨[⟨"d1", "D1", [⟨"a1", "A1", ["q1"]⟩]⟩, ⟨"d2", "D2", [⟨"a2", "A2", ["q1"]⟩]⟩]⟩

def witState10 : SelectionState :=
  ⟨[("d1", { selected := true, areas := [("a1", true)] })]⟩

theorem getSelectedDomains_missing_entry_witness :
    ((⟨"d2", "D2", [⟨"a2", "A2", ["q1"]⟩]⟩ : Domain) ∈ witConfig10.domains ∧
      getKey witState10.domains "d2" = none ∧
      (⟨"d1", "D1", [⟨"a1", "A1", ["q1"]⟩]⟩ : Domain)
        ∈ getSelectedDomains witConfig10 witState10) ∧
    Domain.id ⟨"d1", "D1", [⟨"a1", "A1", ["q1"]⟩]⟩ ≠ "d2" :=
  ⟨⟨by decide, by decide, by decide⟩,
    getSelectedDomains_missing_entry witConfig10 witState10
      ⟨"d2", "D2", [⟨"a2", "A2", ["q1"]⟩]⟩ (by decide) (by decide)
      ⟨"d1", "D1", [⟨"a1", "A1", ["q1"]⟩]⟩ (by decide)⟩

/-! ### C4 and C5: domain and overall scores as rounded unweighted means -/

/-- The per-area contribution of the `calculateDomainScore` loop: `0` for an
area with no recorded answers and at least one question, otherwise the area
score of its (possibly absent) answer array. -/
def areaTerm (answersByArea : List (String × List TriState)) (area : Area) : ℚ :=
  let arr := (getKey answersByArea area.id).getD []
  if arr.length = 0 ∧ area.questions.length ≠ 0 then 0 else calculateAreaScore arr

theorem calculateDomainScore_eq (l : List Area)
    (m : List (String × List TriState)) :
    calculateDomainScore l m =
      if l = [] then 0
      else round2 ((l.map (areaTerm m)).sum / (l.length : ℚ)) := by
  have hstep : (fun (acc : ℚ × ℕ) (area : Area) =>
        let arr := (getKey m area.id).getD []
        if arr.length = 0 ∧ area.questions.length ≠ 0 then (acc.1 + 0, acc.2 + 1)
        else (acc.1 + calculateAreaScore arr, acc.2 + 1))
      = fun (acc : ℚ × ℕ) (area : Area) => (acc.1 + areaTerm m area, acc.2 + 1) := by
    funext acc area
    simp only [areaTerm]
    split
    · simp
    · rfl
  by_cases h : l = []
  · subst h
    simp [calculateDomainScore]
  · have hlen : l.length ≠ 0 := by
      simpa using h
    simp only [calculateDomainScore, if_neg hlen, if_neg h, hstep,
      foldl_sum_count (areaTerm m) l 0 0, zero_add, Nat.zero_add, ne_eq,
      if_pos hlen]

theorem calculateOverallScore_eq (l : List Domain)
    (m : List (String × List TriState)) :
    calculateOverallScore l m =
      if l = [] then 0
      else round2 ((l.map (fun d => calculateDomainScore d.areas m)).sum
        / (l.length : ℚ)) := by
  by_cases h : l = []
  · subst h
    simp [calculateOverallScore]
  · have hlen : l.length ≠ 0 := by
      simpa using h
    simp only [calculateOverallScore, if_neg hlen, if_neg h,
      foldl_sum_count (fun d => calculateDomainScore d.areas m) l 0 0,
      zero_add, Nat.zero_add, ne_eq]
    rw [if_pos hlen]

theorem round2_5_2 : round2 (5/2) = 5/2 := by
  rw [round2_concrete (n := 250) (by norm_num) (by norm_num)]
  norm_num

theorem round2_15_4 : round2 (15/4) = 15/4 := by
  rw [round2_concrete (n := 375) (by norm_num) (by norm_num)]
  norm_num

theorem calculateAreaScore_two_yes : calculateAreaScore [some true, some true] = 5 := by
  have h1 : (List.filter (fun a : TriState => a == some true)
      [some true, some true]).length = 2 := by decide
  simp only [calculateAreaScore, h1]
  norm_num [round2_five]

theorem calculateAreaScore_one_yes : calculateAreaScore [some true] = 5 := by
  have h1 : (List.filter (fun a : TriState => a == some true)
      [some true]).length = 1 := by decide
  simp only [calculateAreaScore, h1]
  norm_num [round2_five]

/-- C4: `calculateDomainScore` returns `0` on an empty area list and
otherwise the rounded unweighted mean of exactly one term per area, the term
being `0` for an area with no recorded answers and at least one question
(not skipped) and the area score of its answers otherwise; concretely, a
domain with area `A` answered `[yes, yes]` (score 5) and area `B` unanswered
with 3 questions (score 0) scores `(5 + 0) / 2 = 2.50`. -/
theorem calculateDomainScore_spec (l : List Area)
    (m : List (String × List TriState)) :
    calculateDomainScore l m =
      (if l = [] then 0
        else round2 ((l.map (areaTerm m)).sum / (l.length : ℚ))) ∧
    calculateDomainScore
        [⟨"A", "Area A", ["q1", "q2"]⟩, ⟨"B", "Area B", ["q1", "q2", "q3"]⟩]
        [("A", [some true, some true])] = 5/2 := by
  refine ⟨calculateDomainScore_eq l m, ?_⟩
  have hA : areaTerm [("A", [some true, some true])] ⟨"A", "Area A", ["q1", "q2"]⟩
      = 5 := by
    have h3 : getKey [("A", [some true, some true])] "A"
        = some [some true, some true] := by decide
    simp [areaTerm, h3, calculateAreaScore_two_yes]
  have hB : areaTerm [("A", [some true, some true])] ⟨"B", "Area B", ["q1", "q2", "q3"]⟩
      = 0 := by
    have h4 : getKey [("A", [some true, some true])] "B" = none := by decide
    simp [areaTerm, h4]
  rw [calculateDomainScore_eq, if_neg (by simp)]
  simp only [List.map_cons, List.map_nil, hA, hB, List.sum_cons, List.sum_nil,
    List.length_cons, List.length_nil]
  norm_num [round2_5_2]

/-- C5: `calculateOverallScore` returns `0` on an empty selected-domain list
and otherwise the rounded unweighted mean of `calculateDomainScore` of each
domain's areas; concretely, two selected domains scoring 2.50 and 5.00 give
an overall score of 3.75. -/
theorem calculateOverallScore_spec (l : List Domain)
    (m : List (String × List TriState)) :
    calculateOverallScore l m =
      (if l = [] then 0
        else round2 ((l.map (fun d => calculateDomainScore d.areas m)).sum
          / (l.length : ℚ))) ∧
    calculateOverallScore
        [⟨"dx", "DX", [⟨"A", "Area A", ["q1", "q2"]⟩,
            ⟨"B", "Area B", ["q1", "q2", "q3"]⟩]⟩,
          ⟨"dy", "DY", [⟨"C", "Area C", ["q1"]⟩]⟩]
        [("A", [some true, some true]), ("C", [some true])] = 15/4 := by
  refine ⟨calculateOverallScore_eq l m, ?_⟩
  have hA : areaTerm [("A", [some true, some true]), ("C", [some true])]
      ⟨"A", "Area A", ["q1", "q2"]⟩ = 5 := by
    have h3 : getKey [("A", [some true, some true]), ("C", [some true])] "A"
        = some [some true, some true] := by decide
    simp [areaTerm, h3, calculateAreaScore_two_yes]
  have hB : areaTerm [("A", [some true, some true]), ("C", [some true])]
      ⟨"B", "Area B", ["q1", "q2", "q3"]⟩ = 0 := by
    have h4 : getKey [("A", [some true, some true]), ("C", [some true])] "B"
        = none := by decide
    simp [areaTerm, h4]
  have hC : areaTerm [("A", [some true, some true]), ("C", [some true])]
      ⟨"C", "Area C", ["q1"]⟩ = 5 := by
    have h5 : getKey [("A", [some true, some true]), ("C", [some true])] "C"
        = some [some true] := by decide
    simp [areaTerm, h5, calculateAreaScore_one_yes]
  have hdx : calculateDomainScore
      [⟨"A", "Area A", ["q1", "q2"]⟩, ⟨"B", "Area B", ["q1", "q2", "q3"]⟩]
      [("A", [some true, some true]), ("C", [some true])] = 5/2 := by
    rw [calculateDomainScore_eq, if_neg (by simp)]
    simp only [List.map_cons, List.map_nil, hA, hB, List.sum_cons, List.sum_nil,
      List.length_cons, List.length_nil]
    norm_num [round2_5_2]
  have hdy : calculateDomainScore [⟨"C", "Area C", ["q1"]⟩]
      [("A", [some true, some true]), ("C", [some true])] = 5 := by
    rw [calculateDomainScore_eq, if_neg (by simp)]
    simp only [List.map_cons, List.map_nil, hC, List.sum_cons, List.sum_nil,
      List.length_cons, List.length_nil]
    norm_num [round2_five]
  rw [calculateOverallScore_eq, if_neg (by simp)]
  simp only [List.map_cons, List.map_nil, List.sum_cons, List.sum_nil,
    List.length_cons, List.length_nil]
  rw [hdx, hdy]
  norm_num [round2_15_4]

/-! ### C8: the default selection is all-selected and valid -/

theorem foldl_setKey_all {V α : Type} (key : α → String) (val : α → V)
    (P : String × V → Prop) (hval : ∀ x, P (key x, val x)) :
    ∀ (l : List α) (m : List (String × V)), (∀ p ∈ m, P p) →
      ∀ p ∈ l.foldl (fun acc x => setKey acc (key x) (val x)) m, P p
  | [], _, hm, p, hp => hm p hp
  | x :: l, m, hm, p, hp => by
    refine foldl_setKey_all key val P hval l (setKey m (key x) (val x)) ?_ p hp
    intro q hq
    rcases mem_setKey hq with h | h
    · exact hm q h
    · rw [h]
      exact hval x

theorem foldl_setKey_fresh {V α : Type} (key : α → String) (val : α → V) :
    ∀ (l : List α) (m : List (String × V)),
      (∀ x ∈ l, key x ∉ m.map Prod.fst) → (l.map key).Nodup →
      l.foldl (fun acc x => setKey acc (key x) (val x)) m
        = m ++ l.map (fun x => (key x, val x))
  | [], m, _, _ => by simp
  | x :: l, m, hfresh, hnodup => by
    rw [List.map_cons, List.nodup_cons] at hnodup
    simp only [List.foldl_cons]
    rw [setKey_of_fresh m (key x) (val x) (hfresh x (List.mem_cons_self x l))]
    rw [foldl_setKey_fresh key val l (m ++ [(key x, val x)]) ?_ hnodup.2]
    · simp
    · intro y hy
      simp only [List.map_append, List.mem_append, List.map_cons, List.map_nil,
        List.mem_singleton]
      push_neg
      refine ⟨hfresh y (List.mem_cons_of_mem x hy), ?_⟩
      intro hEq
      exact hnodup.1 (hEq ▸ List.mem_map_of_mem key hy)

theorem foldl_setKey_ne_nil {V α : Type} (key : α → String) (val : α → V) :
    ∀ (l : List α) (m : List (String × V)), m ≠ [] →
      l.foldl (fun acc x => setKey acc (key x) (val x)) m ≠ []
  | [], _, hm => hm
  | x :: l, m, _ => by
    simp only [List.foldl_cons]
    exact foldl_setKey_ne_nil key val l _ (setKey_ne_nil m (key x) (val x))

theorem defaultDomainSel_all_true (d : Domain) :
    ∀ q ∈ (defaultDomainSel d).areas, q.2 = true := by
  intro q hq
  exact foldl_setKey_all Area.id (fun _ => true) (fun q => q.2 = true)
    (fun _ => rfl) d.areas [] (by simp) q hq

theorem defaultDomainSel_areas_ne_nil {d : Domain} (h : d.areas ≠ []) :
    (defaultDomainSel d).areas ≠ [] := by
  unfold defaultDomainSel
  cases hd : d.areas with
  | nil => exact absurd hd h
  | cons a l =>
    simp only [List.foldl_cons]
    exact foldl_setKey_ne_nil Area.id (fun _ => true) l _ (setKey_ne_nil [] a.id true)

theorem buildDefaultSelection_domains (config : Config)
    (h : (config.domains.map Domain.id).Nodup) :
    (buildDefaultSelection config).domains
      = config.domains.map (fun d => (d.id, defaultDomainSel d)) := by
  unfold buildDefaultSelection
  have heq := foldl_setKey_fresh Domain.id defaultDomainSel config.domains []
    (by simp) h
  simpa using heq

theorem areaTrueCount_pos_of_all_true {ds : DomainSel} (hne : ds.areas ≠ [])
    (hall : ∀ q ∈ ds.areas, q.2 = true) : 0 < areaTrueCount ds := by
  unfold areaTrueCount
  rw [List.filter_eq_self.mpr hall]
  exact List.length_pos.mpr hne

/-- C8: on any configuration, `buildDefaultSelection` marks every domain
entry `selected` and every area flag `true`; and whenever the configuration
(with the data model's unique domain ids) has at least one domain with at
least one area, `validateSelection` on the default selection returns
`true`. -/
theorem buildDefaultSelection_spec (config : Config)
    (hids : (config.domains.map Domain.id).Nodup)
    (hne : ∃ d ∈ config.domains, d.areas ≠ []) :
    (∀ p ∈ (buildDefaultSelection config).domains,
      p.2.selected = true ∧ ∀ q ∈ p.2.areas, q.2 = true) ∧
    (validateSelection (buildDefaultSelection config)).1 = true := by
  constructor
  · intro p hp
    unfold buildDefaultSelection at hp
    refine foldl_setKey_all Domain.id defaultDomainSel
      (fun p => p.2.selected = true ∧ ∀ q ∈ p.2.areas, q.2 = true) ?_
      config.domains [] (by simp) p hp
    intro d
    exact ⟨rfl, defaultDomainSel_all_true d⟩
  · rw [validateSelection_eq]
    simp only [decide_eq_true_eq]
    obtain ⟨d, hd, hdne⟩ := hne
    rw [totalTrueAreas, buildDefaultSelection_domains config hids]
    have hpos : 0 < areaTrueCount (defaultDomainSel d) :=
      areaTrueCount_pos_of_all_true (defaultDomainSel_areas_ne_nil hdne)
        (defaultDomainSel_all_true d)
    have hmem : areaTrueCount (defaultDomainSel d)
        ∈ (config.domains.map (fun d => (d.id, defaultDomainSel d))).map
            (fun p => areaTrueCount p.2) := by
      simp only [List.map_map, Function.comp_def]
      exact List.mem_map_of_mem _ hd
    calc 0 < areaTrueCount (defaultDomainSel d) := hpos
      _ ≤ ((config.domains.map (fun d => (d.id, defaultDomainSel d))).map
            (fun p => areaTrueCount p.2)).sum :=
        List.single_le_sum (fun _ _ => Nat.zero_le _) _ hmem

/-- A one-domain, one-area configuration exercising
`buildDefaultSelection_spec` concretely. -/
def witConfig8 : Config := ⟨[⟨"d1", "D1", [⟨"a1", "A1", ["q1"]⟩]⟩]⟩

theorem buildDefaultSelection_spec_witness :
    ((witConfig8.domains.map Domain.id).Nodup ∧
      ∃ d ∈ witConfig8.domains, d.areas ≠ []) ∧
    (validateSelection (buildDefaultSelection witConfig8)).1 = true :=
  ⟨⟨by decide, by decide⟩,
    (buildDefaultSelection_spec witConfig8 (by decide) (by decide)).2⟩
